import Mathlib

/-!
# pb: an ICMP ping tool

A shallow embedding of the Go sources `main.go`, `pinger.go` and `result.go`,
followed by theorems about the embedded functions.

Conventions of the embedding:

* Go `int` values are `Int`; byte slices are `List UInt8`.
* `float64` values are exact rationals (`ℚ`): rounding of the binary
  representation, NaN and infinities are not modelled.
* A Go function that may return an error or stop with a run-time panic
  (slice or index out of range) returns an `Outcome`.
* Calls into the operating system and the network are taken from an explicit
  environment record, one field per call.
-/

namespace Pb

/-! ## Results of Go calls -/

/-- How a call of a Go function ends: with a value, with a non-nil `error`,
or with a run-time panic. -/
inductive Outcome (α : Type) where
  | ok (v : α)
  | error (msg : String)
  | panic (msg : String)
  deriving Repr, DecidableEq

/-! ## Formatting verbs of `fmt.Sprintf` -/

/-- The verb `%d` on an `int`: decimal digits, with a leading `-` when negative. -/
def fmtInt (n : Int) : String :=
  match n with
  | Int.ofNat m => Nat.repr m
  | Int.negSucc m => "-" ++ Nat.repr (m + 1)

/-- Quotient `a / b` rounded to the nearest integer, ties to the even one. -/
def roundHalfEven (a b : Nat) : Nat :=
  let q := a / b
  let r := a % b
  if 2 * r < b then q
  else if b < 2 * r then q + 1
  else if q % 2 = 0 then q else q + 1

/-- Left-pad `s` with `0` up to width `w`. -/
def padZeros (w : Nat) (s : String) : String :=
  String.mk (List.replicate (w - s.length) '0') ++ s

/-- The verbs `%.<prec>f` (and `%0.<prec>f`, which has no width) on an exact
value: sign, integer part, and `prec` decimals rounded to nearest, ties to even. -/
def fmtFixed (prec : Nat) (x : ℚ) : String :=
  let n := roundHalfEven (x.num.natAbs * 10 ^ prec) x.den
  let sign := if x < 0 then "-" else ""
  let ip := Nat.repr (n / 10 ^ prec)
  if prec = 0 then sign ++ ip
  else sign ++ ip ++ "." ++ padZeros prec (Nat.repr (n % 10 ^ prec))

/-! ## result.go -/

/-- The struct `result`: a single result of sending an echo request. -/
structure result where
  host : String
  bytes : Int
  ttl : Int
  time : ℚ
  answered : Bool
  deriving Repr, DecidableEq

/-- The first `Sprintf` of `result.String`:
`"Reply from %s: bytes=%d, time=%.2f"`. -/
def replyLine (host : String) (bytes : Int) (time : ℚ) : String :=
  "Reply from " ++ host ++ ": bytes=" ++ fmtInt bytes ++ ", time=" ++ fmtFixed 2 time

/-- The second `Sprintf` of `result.String`: `", ttl=%d"`. -/
def ttlSuffix (ttl : Int) : String :=
  ", ttl=" ++ fmtInt ttl

/-- The method `func (r result) String() string`; the `strings.Builder` is the
string written so far. -/
def result.String (r : result) : String :=
  let b := ""
  let b := b ++ replyLine r.host r.bytes r.time
  let b := if r.ttl ≠ 0 then b ++ ttlSuffix r.ttl else b
  b

/-- The local variables of the loop of `stats.String`. -/
structure statsVars where
  lost : Int
  min : ℚ
  max : ℚ
  sum : ℚ
  deriving Repr, DecidableEq

/-- One pass through the body of `for _, st := range s` in `stats.String`. -/
def statsBody (v : statsVars) (st : result) : statsVars :=
  let lost := if st.answered then v.lost - 1 else v.lost
  let mm : ℚ × ℚ :=
    if st.time > v.max then (v.min, st.time)
    else if st.time < v.min then (st.time, v.max)
    else (v.min, v.max)
  { lost := lost, min := mm.1, max := mm.2, sum := v.sum + st.time }

/-- The values handed to the `Sprintf` calls of `stats.String`. -/
structure statsArgs where
  host : String
  sent : Int
  received : Int
  lost : Int
  loss : ℚ
  min : ℚ
  max : ℚ
  avg : ℚ
  deriving Repr, DecidableEq

/-- The computing part of `stats.String` for a non-empty slice: the reads of
`s[0]`, the loop, and the argument expressions of the `Sprintf` calls.
Indexing `s[0]` panics on an empty slice. -/
def stats.args (s : List result) : Outcome statsArgs :=
  match s[0]? with
  | none => Outcome.panic "index out of range [0] with length 0"
  | some s0 =>
    let l : Int := s.length
    let v := s.foldl statsBody { lost := s.length, min := s0.time, max := s0.time, sum := 0 }
    Outcome.ok
      { host := s0.host
        sent := l
        received := l - v.lost
        lost := v.lost
        loss := (v.lost : ℚ) / (l : ℚ)
        min := v.min
        max := v.max
        avg := v.sum / (l : ℚ) }

/-- The writes of `stats.String` to its `strings.Builder`. -/
def statsArgs.render (a : statsArgs) : String :=
  let b := ""
  let b := b ++ ("Ping statistics for " ++ a.host ++ ":\n")
  let b := b ++ ("\tSent = " ++ fmtInt a.sent ++ ", Received = " ++ fmtInt a.received
    ++ ", Lost = " ++ fmtInt a.lost ++ " (" ++ fmtFixed 1 a.loss ++ "% loss)\n")
  let b := b ++ "Approximate RTT in milliseconds:\n"
  let b := b ++ ("\tMinimum = " ++ fmtFixed 2 a.min ++ ", Maximum = " ++ fmtFixed 2 a.max
    ++ ", Average = " ++ fmtFixed 2 a.avg)
  b

/-- The text returned for an empty slice. -/
def noPings : String := "No pings sent. Check your input.\n"

/-- The method `func (s stats) String() string`. -/
def stats.String (s : List result) : Outcome String :=
  if s.length = 0 then Outcome.ok noPings
  else
    match stats.args s with
    | Outcome.ok a => Outcome.ok a.render
    | Outcome.error e => Outcome.error e
    | Outcome.panic e => Outcome.panic e

/-! ## main.go -/

/-- The struct `config`: the values of the flags `-t` and `-c`. -/
structure config where
  ttl : Int
  count : Int
  deriving Repr, DecidableEq

/-- A Go `error` value sent by the pinging loop: either the sentinel
`errOutOfTries` (compared by identity in `main`) or an error built by `ping`. -/
inductive pingError where
  | errOutOfTries
  | failed (msg : String)
  deriving Repr, DecidableEq

/-! ## pinger.go: addresses and `newPinger` -/

/-- The type `net.IP`, a byte slice. -/
abbrev IP := List UInt8

/-- The method `net.IP.To4` of the standard library: a 4-byte address is
returned as is, a 16-byte address with the prefix `0:0:0:0:0:ffff` gives its
last four bytes, anything else gives `nil` (here `none`). -/
def IP.To4 (ip : IP) : Option IP :=
  if ip.length = 4 then some ip
  else if ip.length = 16 ∧ (ip.take 10).all (fun b => b == 0)
      ∧ ip.get? 10 = some 255 ∧ ip.get? 11 = some 255 then
    some ((ip.drop 12).take 4)
  else none

/-- A non-nil error returned by `icmp.ListenPacket`, with the answer of
`errors.Is(err, os.ErrPermission)`. -/
structure listenError where
  msg : String
  isPermission : Bool
  deriving Repr, DecidableEq

/-- The calls `newPinger` makes outside the program, as results per argument. -/
structure netEnv where
  /-- The function `net.ParseIP`; `none` is the nil address. -/
  parseIP : String → Option IP
  /-- The function `net.LookupIP`: the addresses and the error (`none` is nil). -/
  lookupIP : String → List IP × Option String
  /-- The function `icmp.ListenPacket` on a network and an address: a handle or an error. -/
  listenPacket : String → String → Except listenError Nat
  /-- The call `c.IPv4PacketConn().SetTTL(ttl)` on a handle. -/
  setTTL : Nat → Int → Outcome Unit

/-- The struct `pinger`; `c` is the handle of the open connection. -/
structure pinger where
  c : Nat
  ip : IP
  v4 : Bool
  proto : Int
  conf : config
  deriving Repr, DecidableEq

/-- Lines 33 to 42 of `newPinger`: the address assigned to `p.ip`. -/
def newPinger.address (env : netEnv) (host : String) : Outcome IP :=
  match env.parseIP host with
  | some ip => Outcome.ok ip
  | none =>
    let (ips, err) := env.lookupIP host
    if err ≠ none ∧ ips.length = 0 then
      Outcome.error ("newPinger: could not resolve host " ++ host)
    else
      match ips[0]? with
      | none => Outcome.panic "index out of range [0] with length 0"
      | some ip => Outcome.ok ip

/-- The text of the error returned when the platform denies ICMP access. -/
def permissionText : String :=
  "Ping permission denied. \n\t\t\t\tRun sudo sysctl -w \"net.ipv4.ping_group_range=0 429296729\""

/-- The function `newPinger(host, conf)`. -/
def newPinger (env : netEnv) (host : String) (conf : config) : Outcome pinger :=
  match newPinger.address env host with
  | Outcome.error e => Outcome.error e
  | Outcome.panic e => Outcome.panic e
  | Outcome.ok ip =>
    let v4 : Bool := (IP.To4 ip).isSome
    let pr : Int := if v4 then 1 else 58
    let proto : String := if v4 then "udp4" else "udp6"
    let addr : String := if v4 then "0.0.0.0" else "::"
    match env.listenPacket proto addr with
    | Except.error err =>
      if err.isPermission then Outcome.error permissionText
      else Outcome.error ("newPinger: could not open ICMP connection: " ++ err.msg)
    | Except.ok c =>
      let p : pinger := { c := c, ip := ip, v4 := v4, proto := pr, conf := conf }
      if conf.ttl ≠ 0 then
        match env.setTTL c conf.ttl with
        | Outcome.error e => Outcome.error ("newPinger: could not set TTL: " ++ e)
        | Outcome.panic e => Outcome.panic e
        | Outcome.ok _ => Outcome.ok p
      else Outcome.ok p

/-! ## pinger.go: the loop `start` -/

/-- What the loop of `start` does, in order: a call of `p.ping()`, a send on
the channel `results`, a send on the channel `errors`, a one-second sleep. -/
inductive action where
  | probe (k : Nat)
  | sendResult (r : result)
  | sendError (e : pingError)
  | sleep
  deriving Repr, DecidableEq

/-- One pass through the body of the `for` of `start`, with `times` the value
of the counter and `k` the number of calls of `p.ping()` made before;
`ping k` is what the call number `k` returns. -/
def start.body (conf : config) (ping : Nat → Except String result)
    (times : Int) (k : Nat) : List action :=
  (if times ≥ conf.count ∧ conf.count ≠ 0 then [action.sendError pingError.errOutOfTries]
    else [])
  ++ [action.probe k]
  ++ [match ping k with
      | Except.error e => action.sendError (pingError.failed e)
      | Except.ok res => action.sendResult res]
  ++ [action.sleep]

/-- The first `fuel` passes of the `for` of `start`, from counter value
`times`. The loop has no exit; the counter cannot overflow in fewer than
`2^63` passes, each of which sleeps one second. -/
def start.loop (conf : config) (ping : Nat → Except String result) :
    Nat → Int → Nat → List action
  | 0, _, _ => []
  | fuel + 1, times, k =>
    start.body conf ping times k ++ start.loop conf ping fuel (times + 1) (k + 1)

/-- The method `start` (after its `Printf`), run for `fuel` passes. -/
def pinger.start (p : pinger) (ping : Nat → Except String result) (fuel : Nat) :
    List action :=
  start.loop p.conf ping fuel 0 0

/-! ## pinger.go: one probe, `ping` -/

/-- The `n` low bytes of `v`, least significant first
(`binary.LittleEndian.PutUint64` for `n = 8`). -/
def littleEndianBytes : Nat → Nat → List UInt8
  | 0, _ => []
  | n + 1, v => UInt8.ofNat (v % 256) :: littleEndianBytes n (v / 256)

/-- The number whose bytes, least significant first, are `bs`
(`binary.LittleEndian.Uint64` on 8 bytes). -/
def littleEndianValue : List UInt8 → Nat
  | [] => 0
  | b :: bs => b.toNat + 256 * littleEndianValue bs

/-- The conversion `int64(u)` of a `uint64`. -/
def toInt64 (u : Nat) : Int :=
  if u % 2 ^ 64 < 2 ^ 63 then ((u % 2 ^ 64 : Nat) : Int) else ((u % 2 ^ 64 : Nat) : Int) - 2 ^ 64

/-- The conversion `uint64(t)` of an `int64`. -/
def toUint64 (t : Int) : Nat :=
  (t % 2 ^ 64).toNat

/-- The call `binary.Write(buf, binary.LittleEndian, now)` on a fresh buffer,
for `now` of type `int64`: the content of the buffer. The call cannot fail. -/
def binaryWriteInt64 (now : Int) : List UInt8 :=
  littleEndianBytes 8 (toUint64 now)

/-- The call `binary.Read(rbuf, binary.LittleEndian, &reply)` on a reader over
`b`, for `reply` of type `int64`: `io.EOF` on no byte, `io.ErrUnexpectedEOF`
on fewer than 8 bytes. -/
def binaryReadInt64 (b : List UInt8) : Except String Int :=
  if b.length = 0 then Except.error "EOF"
  else if b.length < 8 then Except.error "unexpected EOF"
  else Except.ok (toInt64 (littleEndianValue (b.take 8)))

/-- The slice expression `m[n:]`: `none` is the panic "slice bounds out of range". -/
def sliceFrom (m : List UInt8) (n : Nat) : Option (List UInt8) :=
  if n ≤ m.length then some (m.drop n) else none

/-- The struct `icmp.Echo`. -/
structure Echo where
  ID : Nat
  Seq : Nat
  Data : List UInt8
  deriving Repr, DecidableEq

/-- The interface `icmp.MessageBody`, as the results of its two methods. -/
structure MessageBody where
  Len : Int → Int
  Marshal : Int → List UInt8 × Option String

/-- The methods of `*icmp.Echo`: four bytes of identifier and sequence number,
most significant byte first, then the data. -/
def Echo.body (e : Echo) : MessageBody where
  Len := fun _ => 4 + (e.Data.length : Int)
  Marshal := fun _ =>
    ([UInt8.ofNat (e.ID / 256 % 256), UInt8.ofNat (e.ID % 256),
      UInt8.ofNat (e.Seq / 256 % 256), UInt8.ofNat (e.Seq % 256)] ++ e.Data, none)

/-- The methods of `*icmp.RawBody` (`icmp.DefaultMessageBody` in older
versions), the body of a message whose type has no parser of its own. -/
def RawBody (data : List UInt8) : MessageBody where
  Len := fun _ => (data.length : Int)
  Marshal := fun _ => (data, none)

/-- The types `ipv4.ICMPType` and `ipv6.ICMPType`. -/
inductive icmpType where
  | v4 (n : Nat)
  | v6 (n : Nat)
  deriving Repr, DecidableEq

/-- The struct `icmp.Message`, as far as `ping` reads it. -/
structure Message where
  Type_ : icmpType
  Body : MessageBody

/-- The calls `ping` makes outside the program, as their results. -/
structure pingEnv where
  /-- The first `time.Now().UnixNano()`. -/
  now : Int
  /-- The call `os.Getpid()`. -/
  pid : Nat
  /-- The call `wm.Marshal(nil)` on type, code and body. -/
  marshal : icmpType → Int → Echo → Except String (List UInt8)
  /-- The call `p.c.SetReadDeadline`: the error (`none` is nil). -/
  setReadDeadline : Option String
  /-- The call `p.c.WriteTo`: the error (`none` is nil). -/
  writeTo : List UInt8 → Option String
  /-- The call `p.c.ReadFrom`: the bytes `rb[:n]` and `peer.String()`, or the error. -/
  readFrom : Except String (List UInt8 × String)
  /-- The call `icmp.ParseMessage`. -/
  parseMessage : Int → List UInt8 → Except String Message
  /-- The second `time.Now().UnixNano()`, named `then` in the source. -/
  thenNano : Int

/-- Lines 161 to 167 of `ping`: the marshalled body, the slice `m[4:]` and
the read of the timestamp. The error of `Marshal` is dropped, as in
`m, _ := rm.Body.Marshal(1)`. -/
def ping.timestamp (body : MessageBody) : Outcome Int :=
  let m := (body.Marshal 1).1
  match sliceFrom m 4 with
  | none => Outcome.panic "slice bounds out of range"
  | some rest =>
    match binaryReadInt64 rest with
    | Except.error e => Outcome.error ("ping(): error reading binary data: " ++ e)
    | Except.ok reply => Outcome.ok reply

/-- Lines 153 to 171 of `ping`: from the parsed reply to the result. -/
def ping.reply (p : pinger) (thenNano : Int) (rm : Message) (peer : String) :
    Outcome result :=
  let answered : Bool :=
    match rm.Type_ with
    | icmpType.v4 0 => true
    | icmpType.v6 129 => true
    | _ => false
  match ping.timestamp rm.Body with
  | Outcome.panic e => Outcome.panic e
  | Outcome.error e => Outcome.error e
  | Outcome.ok reply =>
    Outcome.ok
      { host := peer
        answered := answered
        bytes := rm.Body.Len p.proto
        ttl := p.conf.ttl
        time := ((toInt64 (toUint64 (thenNano - reply)) : Int) : ℚ) * (1 / 1000000) }

/-- The method `ping`. -/
def pinger.ping (p : pinger) (env : pingEnv) : Outcome result :=
  let buf := binaryWriteInt64 env.now
  let t : icmpType := if p.v4 then icmpType.v4 8 else icmpType.v6 128
  let body : Echo := { ID := env.pid &&& 0xffff, Seq := 1, Data := buf }
  match env.marshal t 0 body with
  | Except.error e => Outcome.error ("ping(): error marshalling ICMP message: " ++ e)
  | Except.ok wb =>
    match env.setReadDeadline with
    | some e => Outcome.error ("ping(): error setting read deadline: " ++ e)
    | none =>
      match env.writeTo wb with
      | some e => Outcome.error ("ping(): error writing ICMP message: " ++ e)
      | none =>
        match env.readFrom with
        | Except.error e =>
          Outcome.error ("ping(): error reading from ICMP connection: " ++ e)
        | Except.ok (rb, peer) =>
          match env.parseMessage p.proto rb with
          | Except.error e => Outcome.error ("ping(): error parsing ICMP message: " ++ e)
          | Except.ok rm => ping.reply p env.thenNano rm peer

/-! ## Sample inputs and auxiliary definitions of the statements -/

/-- Three results with times 10, 20 and 30, the second one unanswered. -/
def rttSample : List result :=
  [{ host := "192.0.2.1", bytes := 12, ttl := 0, time := 10, answered := true },
   { host := "192.0.2.1", bytes := 12, ttl := 0, time := 20, answered := false },
   { host := "192.0.2.1", bytes := 12, ttl := 0, time := 30, answered := true }]

/-- Five results of which two are unanswered. -/
def lossSample : List result :=
  [{ host := "192.0.2.1", bytes := 12, ttl := 0, time := 10, answered := true },
   { host := "192.0.2.1", bytes := 12, ttl := 0, time := 20, answered := false },
   { host := "192.0.2.1", bytes := 12, ttl := 0, time := 30, answered := true },
   { host := "192.0.2.1", bytes := 12, ttl := 0, time := 40, answered := false },
   { host := "192.0.2.1", bytes := 12, ttl := 0, time := 50, answered := true }]

/-- The loop variables of `stats.String` after the loop on `r0 :: rest`. -/
def statsFinal (r0 : result) (rest : List result) : statsVars :=
  (r0 :: rest).foldl statsBody
    { lost := ((r0 :: rest).length : Int), min := r0.time, max := r0.time, sum := 0 }

/-- The result every probe of the sample run returns. -/
def sampleResult : result :=
  { host := "192.0.2.1", bytes := 12, ttl := 0, time := 10, answered := true }

/-- A pinger configured with `-c 1`. -/
def countOnePinger : pinger :=
  { c := 0, ip := [192, 0, 2, 1], v4 := true, proto := 1, conf := { ttl := 0, count := 1 } }

/-- The action that follows the call number `k` of `p.ping()`: the send of
what it returned. -/
def outcomeAction (ping : Nat → Except String result) (k : Nat) : action :=
  match ping k with
  | Except.error e => action.sendError (pingError.failed e)
  | Except.ok res => action.sendResult res

/-- A pass of the loop of `start` in which the counter is below the count. -/
def plainPass (ping : Nat → Except String result) (k : Nat) : List action :=
  [action.probe k, outcomeAction ping k, action.sleep]

/-- The passes number `k`, ..., `k + n - 1`, all with the counter below the count. -/
def plainPasses (ping : Nat → Except String result) : Nat → Nat → List action
  | 0, _ => []
  | n + 1, k => plainPass ping k ++ plainPasses ping n (k + 1)

/-- The address selection the specification describes: the first address
with a 4-byte form if there is one, and the first address otherwise. -/
def preferIPv4 (ips : List IP) : Option IP :=
  match ips.find? (fun ip => (IP.To4 ip).isSome) with
  | some ip => some ip
  | none => ips.head?

/-- The address `2001:db8::1`. -/
def sampleV6 : IP := [0x20, 0x01, 0x0d, 0xb8, 0, 0, 0, 0, 0, 0, 0, 0, 0, 0, 0, 1]

/-- The address `192.0.2.1`. -/
def sampleV4 : IP := [192, 0, 2, 1]

/-- An environment in which no host is a literal address, the lookup returns
`ips` and `err`, and opening the connection succeeds. -/
def lookupEnv (ips : List IP) (err : Option String) : netEnv where
  parseIP := fun _ => none
  lookupIP := fun _ => (ips, err)
  listenPacket := fun _ _ => Except.ok 3
  setTTL := fun _ _ => Outcome.ok ()

/-- The call `parseEcho` of `golang.org/x/net/icmp` on the bytes after the
4-byte header: identifier and sequence number, then the data. -/
def parseEcho (b : List UInt8) : Except String MessageBody :=
  if b.length < 4 then Except.error "message too short"
  else
    Except.ok (Echo.body
      { ID := (b.getD 0 0).toNat * 256 + (b.getD 1 0).toNat
        Seq := (b.getD 2 0).toNat * 256 + (b.getD 3 0).toNat
        Data := b.drop 4 })

/-- The types that `icmp.ParseMessage` parses with `parseEcho`: echo and echo
reply, of either family. -/
def isEchoType : icmpType → Bool
  | icmpType.v4 n => n = 0 ∨ n = 8
  | icmpType.v6 n => n = 128 ∨ n = 129

/-- The other types for which `icmp.ParseMessage` has a parser of the body:
destination unreachable, time exceeded, parameter problem, extended echo
request and reply, and packet too big for IPv6. -/
def hasOwnParser : icmpType → Bool
  | icmpType.v4 n => n = 3 ∨ n = 11 ∨ n = 12 ∨ n = 42 ∨ n = 43
  | icmpType.v6 n => n = 1 ∨ n = 2 ∨ n = 3 ∨ n = 4 ∨ n = 160 ∨ n = 161

/-- The function `icmp.ParseMessage` of `golang.org/x/net/icmp`: a datagram
shorter than the 4-byte header is rejected, the type is the first byte read
in the family of `proto`, and the bytes after the header go to the parser of
that type, or into a raw body when the type has none. The parsers of
`hasOwnParser` are the argument `parsers`. -/
def ParseMessage (parsers : icmpType → List UInt8 → Except String MessageBody)
    (proto : Int) (b : List UInt8) : Except String Message :=
  if b.length < 4 then Except.error "message too short"
  else
    let n := (b.getD 0 0).toNat
    let ty : Option icmpType :=
      if proto = 1 then some (icmpType.v4 n)
      else if proto = 58 then some (icmpType.v6 n)
      else none
    match ty with
    | none => Except.error "invalid protocol"
    | some t =>
      let body : Except String MessageBody :=
        if isEchoType t then parseEcho (b.drop 4)
        else if hasOwnParser t then parsers t (b.drop 4)
        else Except.ok (RawBody (b.drop 4))
      match body with
      | Except.error e => Except.error e
      | Except.ok body => Except.ok { Type_ := t, Body := body }

/-- An environment of `ping` in which the request marshals to `wb` and is
sent, and the datagram read back is `[41, 0, 0, 0, 7, 7]`: a message of type
41, which has no parser of its own, with a body of two bytes. -/
def shortReplyEnv (wb : List UInt8)
    (parsers : icmpType → List UInt8 → Except String MessageBody) : pingEnv where
  now := 1700000000000000000
  pid := 4242
  marshal := fun _ _ _ => Except.ok wb
  setReadDeadline := none
  writeTo := fun _ => none
  readFrom := Except.ok ([41, 0, 0, 0, 7, 7], "192.0.2.1")
  parseMessage := ParseMessage parsers
  thenNano := 1700000000005000000

/-! ## Properties of `result.String` -/

/-- A number below 100, padded to two places, is its two decimal digits. -/
theorem padZeros_two (m : Nat) (h : m < 100) :
    padZeros 2 (Nat.repr m) = String.mk [Nat.digitChar (m / 10), Nat.digitChar (m % 10)] := by
  revert m
  decide!

/-- The verb `%d`: a `-` for a negative number, then the decimal digits of
the absolute value. -/
theorem fmtInt_eq (n : Int) :
    fmtInt n = (if n < 0 then "-" else "") ++ Nat.repr n.natAbs := by
  cases n with
  | ofNat m =>
    have h : ¬ ((m : Int) < 0) := by omega
    simp [fmtInt, h]
  | negSucc m =>
    have h : Int.negSucc m < 0 := Int.negSucc_lt_zero m
    simp [fmtInt, h, Int.natAbs]

/-- The rounded quotient is within one half of the exact quotient, and even
when exactly one half away. -/
theorem roundHalfEven_near (a b : Nat) (hb : 0 < b) :
    |(a : ℚ) / (b : ℚ) - (roundHalfEven a b : ℚ)| ≤ 1 / 2
      ∧ (|(a : ℚ) / (b : ℚ) - (roundHalfEven a b : ℚ)| = 1 / 2 → roundHalfEven a b % 2 = 0) := by
  have hbq : (0 : ℚ) < (b : ℚ) := by exact_mod_cast hb
  have hdm : (a : ℚ) = (b : ℚ) * ((a / b : Nat) : ℚ) + ((a % b : Nat) : ℚ) := by
    exact_mod_cast (Nat.div_add_mod a b).symm
  have hr : a % b < b := Nat.mod_lt a hb
  have hr0 : (0 : ℚ) ≤ ((a % b : Nat) : ℚ) := Nat.cast_nonneg _
  have key : (a : ℚ) / (b : ℚ) = ((a / b : Nat) : ℚ) + ((a % b : Nat) : ℚ) / (b : ℚ) := by
    rw [eq_comm, ← sub_eq_zero]
    field_simp
    linarith
  unfold roundHalfEven
  simp only
  by_cases h1 : 2 * (a % b) < b
  · have h1q : 2 * ((a % b : Nat) : ℚ) < (b : ℚ) := by exact_mod_cast h1
    have ht : ((a % b : Nat) : ℚ) / (b : ℚ) < 1 / 2 := by
      rw [div_lt_iff₀ hbq]; linarith
    have ht0 : 0 ≤ ((a % b : Nat) : ℚ) / (b : ℚ) := div_nonneg hr0 (le_of_lt hbq)
    rw [if_pos h1, key, add_sub_cancel_left, abs_of_nonneg ht0]
    exact ⟨le_of_lt ht, fun e => absurd e (ne_of_lt ht)⟩
  · rw [if_neg h1]
    by_cases h2 : b < 2 * (a % b)
    · have h2q : (b : ℚ) < 2 * ((a % b : Nat) : ℚ) := by exact_mod_cast h2
      have hrq : ((a % b : Nat) : ℚ) < (b : ℚ) := by exact_mod_cast hr
      have ht : 1 / 2 < ((a % b : Nat) : ℚ) / (b : ℚ) := by
        rw [lt_div_iff₀ hbq]; linarith
      have ht1 : ((a % b : Nat) : ℚ) / (b : ℚ) < 1 := by
        rw [div_lt_iff₀ hbq]; linarith
      rw [if_pos h2, key]
      have e : ((a / b : Nat) : ℚ) + ((a % b : Nat) : ℚ) / (b : ℚ) - ((a / b + 1 : Nat) : ℚ)
          = -(1 - ((a % b : Nat) : ℚ) / (b : ℚ)) := by
        push_cast; ring
      rw [e, abs_neg, abs_of_nonneg (by linarith)]
      exact ⟨by linarith, fun e => by linarith⟩
    · rw [if_neg h2]
      have h3 : 2 * (a % b) = b := by omega
      have h3q : 2 * ((a % b : Nat) : ℚ) = (b : ℚ) := by exact_mod_cast h3
      have ht : ((a % b : Nat) : ℚ) / (b : ℚ) = 1 / 2 := by
        rw [div_eq_iff (ne_of_gt hbq)]; linarith
      by_cases h4 : a / b % 2 = 0
      · rw [if_pos h4, key, add_sub_cancel_left, ht]
        have hh : |(1 / 2 : ℚ)| = 1 / 2 := abs_of_pos (by norm_num)
        exact ⟨le_of_eq hh, fun _ => h4⟩
      · rw [if_neg h4, key, ht]
        have e : ((a / b : Nat) : ℚ) + 1 / 2 - ((a / b + 1 : Nat) : ℚ) = -(1 / 2) := by
          push_cast; ring
        have hh : |(-(1 / 2) : ℚ)| = 1 / 2 := by rw [abs_neg]; exact abs_of_pos (by norm_num)
        rw [e]
        exact ⟨le_of_eq hh, fun _ => by omega⟩

/-- The absolute value of a rational is the absolute value of its numerator
over its denominator. -/
theorem abs_eq_natAbs_div (x : ℚ) : |x| = ((x.num.natAbs : Nat) : ℚ) / ((x.den : Nat) : ℚ) := by
  have hden : (0 : ℚ) < ((x.den : Nat) : ℚ) := by exact_mod_cast x.den_pos
  have hx : x = (x.num : ℚ) / ((x.den : Nat) : ℚ) := (Rat.num_div_den x).symm
  conv_lhs => rw [hx]
  rw [abs_div, abs_of_pos hden, Nat.cast_natAbs, Int.cast_abs]

/-- The verb `%.2f` on an exact value `x`: an optional `-`, the integer part,
a point and exactly two digits, which together spell the multiple `n / 100`
of a hundredth nearest to the absolute value of `x`, the even `n` on a tie. -/
theorem fmtFixed_two (x : ℚ) :
    ∃ n : Nat, |(|x| * 100 - (n : ℚ))| ≤ 1 / 2
      ∧ (|(|x| * 100 - (n : ℚ))| = 1 / 2 → n % 2 = 0)
      ∧ fmtFixed 2 x = (if x < 0 then "-" else "") ++ Nat.repr (n / 100) ++ "."
          ++ String.mk [Nat.digitChar (n / 10 % 10), Nat.digitChar (n % 10)] := by
  obtain ⟨h1, h2⟩ := roundHalfEven_near (x.num.natAbs * 10 ^ 2) x.den x.den_pos
  have hden : (0 : ℚ) < ((x.den : Nat) : ℚ) := by exact_mod_cast x.den_pos
  have e : |x| * 100 = ((x.num.natAbs * 10 ^ 2 : Nat) : ℚ) / ((x.den : Nat) : ℚ) := by
    rw [abs_eq_natAbs_div x]
    push_cast
    ring
  refine ⟨roundHalfEven (x.num.natAbs * 10 ^ 2) x.den, ?_, ?_, ?_⟩
  · rw [e]; exact h1
  · rw [e]; exact h2
  · have hp := padZeros_two (roundHalfEven (x.num.natAbs * 10 ^ 2) x.den % 10 ^ 2)
      (Nat.mod_lt _ (by norm_num))
    have d1 : roundHalfEven (x.num.natAbs * 10 ^ 2) x.den % 10 ^ 2 / 10
        = roundHalfEven (x.num.natAbs * 10 ^ 2) x.den / 10 % 10 := by omega
    have d2 : roundHalfEven (x.num.natAbs * 10 ^ 2) x.den % 10 ^ 2 % 10
        = roundHalfEven (x.num.natAbs * 10 ^ 2) x.den % 10 := by omega
    rw [d1, d2] at hp
    have c : ¬ ((2 : Nat) = 0) := by decide
    have c2 : (10 : Nat) ^ 2 = 100 := by norm_num
    simp only [fmtFixed, if_neg c]
    rw [hp, c2]

/-- Claim C9: `result.String` renders exactly the line
`Reply from <host>: bytes=<n>, time=<rtt with 2 decimals>` when `ttl` is 0 and
that line followed by `, ttl=<ttl>` when `ttl` is not 0, in particular a line
ending in `, ttl=64` when `ttl` is 64. The numbers `<n>` and `<ttl>` are in
decimal with a `-` when negative; the time is an optional `-`, the integer
part, a point and exactly two digits, spelling the multiple `n / 100` of a
hundredth nearest to the absolute value of the time (the even `n` on a tie).
A time of 10.237 with 12 bytes from 192.0.2.1 renders `time=10.24`. -/
theorem result_String_format (host : String) (bytes ttl : Int) (time : ℚ) (answered : Bool) :
    (∃ (n : Nat) (line : String),
      |(|time| * 100 - (n : ℚ))| ≤ 1 / 2
      ∧ (|(|time| * 100 - (n : ℚ))| = 1 / 2 → n % 2 = 0)
      ∧ line = "Reply from " ++ host ++ ": bytes="
          ++ (if bytes < 0 then "-" else "") ++ Nat.repr bytes.natAbs
          ++ ", time=" ++ (if time < 0 then "-" else "") ++ Nat.repr (n / 100) ++ "."
          ++ String.mk [Nat.digitChar (n / 10 % 10), Nat.digitChar (n % 10)]
      ∧ result.String
          { host := host, bytes := bytes, ttl := 0, time := time, answered := answered } = line
      ∧ result.String
          { host := host, bytes := bytes, ttl := ttl, time := time, answered := answered }
          = line ++ (if ttl = 0 then ""
              else ", ttl=" ++ (if ttl < 0 then "-" else "") ++ Nat.repr ttl.natAbs)
      ∧ result.String
          { host := host, bytes := bytes, ttl := 64, time := time, answered := answered }
          = line ++ ", ttl=64")
    ∧ result.String
        { host := "192.0.2.1", bytes := 12, ttl := 0, time := 10237 / 1000, answered := true }
        = "Reply from 192.0.2.1: bytes=12, time=10.24"
    ∧ result.String
        { host := "192.0.2.1", bytes := 12, ttl := 64, time := 10237 / 1000, answered := true }
        = "Reply from 192.0.2.1: bytes=12, time=10.24, ttl=64"
    ∧ result.String
        { host := "192.0.2.1", bytes := 12, ttl := -1, time := -1 / 8, answered := false }
        = "Reply from 192.0.2.1: bytes=12, time=-0.12, ttl=-1" := by
  refine ⟨?_, by decide!, by decide!, by decide!⟩
  obtain ⟨n, h1, h2, h3⟩ := fmtFixed_two time
  refine ⟨n, _, h1, h2, rfl, ?_, ?_, ?_⟩
  · simp [result.String, replyLine, h3, fmtInt_eq, String.append_assoc]
  · by_cases h : ttl = 0
    · simp [result.String, replyLine, h3, fmtInt_eq, String.append_assoc, h]
    · simp [result.String, replyLine, ttlSuffix, h3, fmtInt_eq, String.append_assoc, h]
  · have e : fmtInt 64 = "64" := by decide
    simp [result.String, replyLine, ttlSuffix, h3, e, fmtInt_eq bytes, String.append_assoc]

/-! ## Properties of `stats.String` -/

/-- The counter `lost` after the loop: one less per answered entry. -/
theorem foldl_statsBody_lost (l : List result) (v : statsVars) :
    (l.foldl statsBody v).lost = v.lost - (l.countP (fun r => r.answered) : Int) := by
  induction l generalizing v with
  | nil => simp
  | cons r l ih =>
    rw [List.foldl_cons, ih, List.countP_cons]
    by_cases h : r.answered = true
    · simp [statsBody, h]; omega
    · simp [statsBody, h]

/-- The accumulator `sum` after the loop. -/
theorem foldl_statsBody_sum (l : List result) (v : statsVars) :
    (l.foldl statsBody v).sum = v.sum + (l.map (fun r => r.time)).sum := by
  induction l generalizing v with
  | nil => simp
  | cons r l ih =>
    rw [List.foldl_cons, ih]
    simp [statsBody, add_assoc]

/-- One pass keeps `min ≤ max`, only lowers `min`, only raises `max`, and
brackets the entry it read. -/
theorem statsBody_bounds (v : statsVars) (r : result) (h : v.min ≤ v.max) :
    (statsBody v r).min ≤ (statsBody v r).max
      ∧ (statsBody v r).min ≤ v.min ∧ v.max ≤ (statsBody v r).max
      ∧ (statsBody v r).min ≤ r.time ∧ r.time ≤ (statsBody v r).max
      ∧ ((statsBody v r).min = v.min ∨ (statsBody v r).min = r.time)
      ∧ ((statsBody v r).max = v.max ∨ (statsBody v r).max = r.time) := by
  unfold statsBody
  by_cases h1 : r.time > v.max
  · simp only [h1, if_true]
    refine ⟨?_, le_refl _, ?_, ?_, le_refl _, by simp, by simp⟩
    · exact le_trans h (le_of_lt h1)
    · exact le_of_lt h1
    · exact le_trans h (le_of_lt h1)
  · by_cases h2 : r.time < v.min
    · simp only [h1, h2, if_true, if_false]
      refine ⟨?_, le_of_lt h2, le_refl _, le_refl _, ?_, by simp, by simp⟩
      · exact le_trans (le_of_lt h2) h
      · exact le_of_not_gt h1
    · simp only [h1, h2, if_false]
      exact ⟨h, le_refl _, le_refl _, le_of_not_gt h2, le_of_not_gt h1, by simp, by simp⟩

/-- The variables `min` and `max` after the loop bracket every entry read and
are each the starting value or the time of an entry read. -/
theorem foldl_statsBody_bounds (l : List result) (v : statsVars) (h : v.min ≤ v.max) :
    (l.foldl statsBody v).min ≤ v.min ∧ v.max ≤ (l.foldl statsBody v).max
      ∧ (∀ r ∈ l, (l.foldl statsBody v).min ≤ r.time ∧ r.time ≤ (l.foldl statsBody v).max)
      ∧ ((l.foldl statsBody v).min = v.min ∨ ∃ r ∈ l, r.time = (l.foldl statsBody v).min)
      ∧ ((l.foldl statsBody v).max = v.max ∨ ∃ r ∈ l, r.time = (l.foldl statsBody v).max) := by
  induction l generalizing v with
  | nil => simp
  | cons a l ih =>
    obtain ⟨b1, b2, b3, b4, b5, b6, b7⟩ := statsBody_bounds v a h
    obtain ⟨i1, i2, i3, i4, i5⟩ := ih (statsBody v a) b1
    rw [List.foldl_cons]
    refine ⟨le_trans i1 b2, le_trans b3 i2, ?_, ?_, ?_⟩
    · intro r hr
      rcases List.mem_cons.mp hr with e | hm
      · subst e
        exact ⟨le_trans i1 b4, le_trans b5 i2⟩
      · exact i3 r hm
    · rcases i4 with e | ⟨r, hr, e⟩
      · rcases b6 with e2 | e2
        · exact Or.inl (e.trans e2)
        · exact Or.inr ⟨a, List.mem_cons_self _ _, (e.trans e2).symm⟩
      · exact Or.inr ⟨r, List.mem_cons_of_mem _ hr, e⟩
    · rcases i5 with e | ⟨r, hr, e⟩
      · rcases b7 with e2 | e2
        · exact Or.inl (e.trans e2)
        · exact Or.inr ⟨a, List.mem_cons_self _ _, (e.trans e2).symm⟩
      · exact Or.inr ⟨r, List.mem_cons_of_mem _ hr, e⟩

/-- The arguments `stats.String` computes on a non-empty slice. -/
theorem stats_args_cons (r0 : result) (rest : List result) :
    stats.args (r0 :: rest) = Outcome.ok
      { host := r0.host
        sent := ((r0 :: rest).length : Int)
        received := ((r0 :: rest).length : Int) - (statsFinal r0 rest).lost
        lost := (statsFinal r0 rest).lost
        loss := ((statsFinal r0 rest).lost : ℚ) / (((r0 :: rest).length : Int) : ℚ)
        min := (statsFinal r0 rest).min
        max := (statsFinal r0 rest).max
        avg := (statsFinal r0 rest).sum / (((r0 :: rest).length : Int) : ℚ) } := by
  simp [stats.args, statsFinal]

/-- On a non-empty slice `stats.String` is the rendering of `stats.args`. -/
theorem stats_String_cons (r0 : result) (rest : List result) (a : statsArgs)
    (h : stats.args (r0 :: rest) = Outcome.ok a) :
    stats.String (r0 :: rest) = Outcome.ok a.render := by
  simp [stats.String, h]

/-- Answered and unanswered entries together are all entries. -/
theorem countP_answered_add (s : List result) :
    s.countP (fun r => r.answered) + s.countP (fun r => !r.answered) = s.length := by
  induction s with
  | nil => rfl
  | cons r l ih =>
    simp only [List.countP_cons, List.length_cons]
    cases r.answered <;> simp <;> omega

/-- Claim C3: on a non-empty slice `stats.String` reports `Sent` as the length,
`Lost` as the number of entries with `answered == false`, and `Received` as
`Sent - Lost`, which is the number of answered entries. -/
theorem stats_String_counts (r0 : result) (rest : List result) :
    ∃ a, stats.args (r0 :: rest) = Outcome.ok a
      ∧ stats.String (r0 :: rest) = Outcome.ok a.render
      ∧ a.sent = (r0 :: rest).length
      ∧ a.lost = (r0 :: rest).countP (fun r => !r.answered)
      ∧ a.received = a.sent - a.lost
      ∧ a.received = (r0 :: rest).countP (fun r => r.answered)
      ∧ a.received + a.lost = a.sent := by
  have hc := countP_answered_add (r0 :: rest)
  have hl : (statsFinal r0 rest).lost
      = ((r0 :: rest).length : Int) - ((r0 :: rest).countP (fun r => r.answered) : Int) :=
    foldl_statsBody_lost _ _
  refine ⟨_, stats_args_cons r0 rest, stats_String_cons r0 rest _ (stats_args_cons r0 rest),
    rfl, ?_, rfl, ?_, ?_⟩
  · show (statsFinal r0 rest).lost = _
    omega
  · show ((r0 :: rest).length : Int) - (statsFinal r0 rest).lost = _
    omega
  · show ((r0 :: rest).length : Int) - (statsFinal r0 rest).lost + (statsFinal r0 rest).lost
      = ((r0 :: rest).length : Int)
    omega

/-- Claim C4: on a non-empty slice, with times as exact numbers, the `Minimum`
reported by `stats.String` is the smallest time over all entries, the
`Maximum` the largest, and the `Average` the sum of all times divided by the
number of entries, unanswered entries included; times `[10, 20, 30]` give
10, 30 and 20. -/
theorem stats_String_rtt (r0 : result) (rest : List result) :
    ∃ a, stats.args (r0 :: rest) = Outcome.ok a
      ∧ stats.String (r0 :: rest) = Outcome.ok a.render
      ∧ (∃ r ∈ r0 :: rest, r.time = a.min) ∧ (∀ r ∈ r0 :: rest, a.min ≤ r.time)
      ∧ (∃ r ∈ r0 :: rest, r.time = a.max) ∧ (∀ r ∈ r0 :: rest, r.time ≤ a.max)
      ∧ a.avg = ((r0 :: rest).map (fun r => r.time)).sum / ((r0 :: rest).length : ℚ)
      ∧ ((r0 :: rest).map (fun r => r.time) = [10, 20, 30]
          → a.min = 10 ∧ a.max = 30 ∧ a.avg = 20) := by
  obtain ⟨_, _, hall, hmin, hmax⟩ := foldl_statsBody_bounds (r0 :: rest)
    { lost := ((r0 :: rest).length : Int), min := r0.time, max := r0.time, sum := 0 } (le_refl _)
  have hsum : (statsFinal r0 rest).sum = 0 + ((r0 :: rest).map (fun r => r.time)).sum :=
    foldl_statsBody_sum _ _
  have emin : ∃ r ∈ r0 :: rest, r.time = (statsFinal r0 rest).min := by
    rcases hmin with e | h
    · exact ⟨r0, List.mem_cons_self _ _, e.symm⟩
    · exact h
  have emax : ∃ r ∈ r0 :: rest, r.time = (statsFinal r0 rest).max := by
    rcases hmax with e | h
    · exact ⟨r0, List.mem_cons_self _ _, e.symm⟩
    · exact h
  have lmin : ∀ r ∈ r0 :: rest, (statsFinal r0 rest).min ≤ r.time := fun r hr => (hall r hr).1
  have lmax : ∀ r ∈ r0 :: rest, r.time ≤ (statsFinal r0 rest).max := fun r hr => (hall r hr).2
  have havg : (statsFinal r0 rest).sum / (((r0 :: rest).length : Int) : ℚ)
      = ((r0 :: rest).map (fun r => r.time)).sum / ((r0 :: rest).length : ℚ) := by
    rw [hsum, zero_add]
    norm_cast
  refine ⟨_, stats_args_cons r0 rest, stats_String_cons r0 rest _ (stats_args_cons r0 rest),
    emin, lmin, emax, lmax, havg, ?_⟩
  intro h
  have hmem : ∀ x : ℚ, (∃ r ∈ r0 :: rest, r.time = x) ↔ x ∈ ([10, 20, 30] : List ℚ) := by
    intro x
    rw [← h]
    simp only [List.mem_map]
  have hlen : (r0 :: rest).length = 3 := by
    have := congrArg List.length h
    simpa using this
  have m10 : (statsFinal r0 rest).min ≤ 10 := by
    obtain ⟨r, hr, e⟩ := (hmem 10).mpr (by simp)
    exact e ▸ lmin r hr
  have m30 : 30 ≤ (statsFinal r0 rest).max := by
    obtain ⟨r, hr, e⟩ := (hmem 30).mpr (by simp)
    exact e ▸ lmax r hr
  have i1 := (hmem _).mp emin
  have i2 := (hmem _).mp emax
  simp only [List.mem_cons, List.mem_singleton, List.not_mem_nil, or_false] at i1 i2
  refine ⟨?_, ?_, ?_⟩
  · show (statsFinal r0 rest).min = 10
    rcases i1 with e | e | e
    · exact e
    · rw [e] at m10; norm_num at m10
    · rw [e] at m10; norm_num at m10
  · show (statsFinal r0 rest).max = 30
    rcases i2 with e | e | e
    · rw [e] at m30; norm_num at m30
    · rw [e] at m30; norm_num at m30
    · exact e
  · show (statsFinal r0 rest).sum / (((r0 :: rest).length : Int) : ℚ) = 20
    rw [havg, h, hlen]
    norm_num

/-- The times 10, 20 and 30, the second one of an unanswered probe. -/
theorem stats_String_rtt_witness :
    ∃ a, stats.args rttSample = Outcome.ok a ∧ a.min = 10 ∧ a.max = 30 ∧ a.avg = 20 := by
  obtain ⟨a, h1, _, _, _, _, _, _, h⟩ := stats_String_rtt
    { host := "192.0.2.1", bytes := 12, ttl := 0, time := 10, answered := true }
    [{ host := "192.0.2.1", bytes := 12, ttl := 0, time := 20, answered := false },
     { host := "192.0.2.1", bytes := 12, ttl := 0, time := 30, answered := true }]
  exact ⟨a, h1, h (by simp)⟩

/-- The `%0.1f` argument of the report is `lost / sent`, with no factor 100. -/
theorem stats_args_loss (r0 : result) (rest : List result) :
    ∃ a, stats.args (r0 :: rest) = Outcome.ok a
      ∧ a.loss = (((r0 :: rest).countP (fun r => !r.answered) : Nat) : ℚ)
          / (((r0 :: rest).length : Nat) : ℚ) := by
  have hc := countP_answered_add (r0 :: rest)
  have hl : (statsFinal r0 rest).lost
      = ((r0 :: rest).length : Int) - ((r0 :: rest).countP (fun r => r.answered) : Int) :=
    foldl_statsBody_lost _ _
  have e : (statsFinal r0 rest).lost = (((r0 :: rest).countP (fun r => !r.answered) : Nat) : Int) := by
    omega
  refine ⟨_, stats_args_cons r0 rest, ?_⟩
  show ((statsFinal r0 rest).lost : ℚ) / (((r0 :: rest).length : Int) : ℚ) = _
  rw [e, Int.cast_natCast, Int.cast_natCast]

/-- Claim C2, at five entries of which two are unanswered: the report of
`stats.String` shows `0.4% loss`, the quotient `lost / sent`, where
`100 * lost / sent` is `40.0`. -/
theorem stats_String_loss_sample :
    stats.String lossSample = Outcome.ok
      ("Ping statistics for 192.0.2.1:\n\tSent = 5, Received = 3, Lost = 2 (0.4% loss)\n"
        ++ "Approximate RTT in milliseconds:\n"
        ++ "\tMinimum = 10.00, Maximum = 50.00, Average = 30.00")
      ∧ fmtFixed 1 (100 * 2 / 5) = "40.0" := by
  decide!

/-- Claim C10: on the empty slice `stats.String` returns the text
`No pings sent. Check your input.` and a newline, with no panic; on a
non-empty slice it returns another text, which begins with
`Ping statistics for <host of the first entry>:`. -/
theorem stats_String_empty_or_heading :
    stats.String [] = Outcome.ok "No pings sent. Check your input.\n"
      ∧ ∀ (r0 : result) (rest : List result), ∃ tail : String,
          stats.String (r0 :: rest)
              = Outcome.ok ("Ping statistics for " ++ r0.host ++ ":" ++ tail)
            ∧ "Ping statistics for " ++ r0.host ++ ":" ++ tail
              ≠ "No pings sent. Check your input.\n" := by
  refine ⟨by decide, ?_⟩
  intro r0 rest
  have key : ∀ a : statsArgs, ∃ tail : String,
      a.render = "Ping statistics for " ++ a.host ++ ":" ++ tail := by
    intro a
    refine ⟨"\n" ++ (("\tSent = " ++ fmtInt a.sent ++ ", Received = " ++ fmtInt a.received
      ++ ", Lost = " ++ fmtInt a.lost ++ " (" ++ fmtFixed 1 a.loss ++ "% loss)\n")
      ++ "Approximate RTT in milliseconds:\n"
      ++ ("\tMinimum = " ++ fmtFixed 2 a.min ++ ", Maximum = " ++ fmtFixed 2 a.max
      ++ ", Average = " ++ fmtFixed 2 a.avg)), ?_⟩
    have e : ":\n" = ":" ++ "\n" := by decide
    simp only [statsArgs.render, e, String.append_assoc, String.empty_append]
  obtain ⟨tail, ht⟩ := key
    { host := r0.host
      sent := ((r0 :: rest).length : Int)
      received := ((r0 :: rest).length : Int) - (statsFinal r0 rest).lost
      lost := (statsFinal r0 rest).lost
      loss := ((statsFinal r0 rest).lost : ℚ) / (((r0 :: rest).length : Int) : ℚ)
      min := (statsFinal r0 rest).min
      max := (statsFinal r0 rest).max
      avg := (statsFinal r0 rest).sum / (((r0 :: rest).length : Int) : ℚ) }
  refine ⟨tail, ?_, ?_⟩
  · rw [stats_String_cons r0 rest _ (stats_args_cons r0 rest), ht]
  · intro h
    have h2 := congrArg String.data h
    have e1 : "Ping statistics for ".data = 'P' :: "ing statistics for ".data := by decide
    have e2 : "No pings sent. Check your input.\n".data
        = 'N' :: "o pings sent. Check your input.\n".data := by decide
    rw [String.append_assoc, String.append_assoc, String.data_append, e1, e2,
      List.cons_append] at h2
    exact absurd (List.cons.inj h2).1 (by decide)

/-! ## Properties of `start` -/

/-- While the counter stays below a positive count, every pass is a probe,
the send of its outcome, and a sleep. -/
theorem start_loop_below (conf : config) (ping : Nat → Except String result)
    (n : Nat) (times : Int) (k : Nat) (h : times + n ≤ conf.count) :
    start.loop conf ping n times k = plainPasses ping n k := by
  induction n generalizing times k with
  | zero => rfl
  | succ n ih =>
    have hlt : ¬ (times ≥ conf.count ∧ conf.count ≠ 0) := by
      push_cast at h
      omega
    have hrec : times + 1 + (n : Int) ≤ conf.count := by
      push_cast at h
      omega
    simp only [start.loop, plainPasses, ih (times + 1) (k + 1) hrec, start.body, hlt, if_false,
      plainPass, outcomeAction]
    simp

/-- Running `a + b` passes is running `a` passes and then `b` more. -/
theorem start_loop_add (conf : config) (ping : Nat → Except String result)
    (a b : Nat) (times : Int) (k : Nat) :
    start.loop conf ping (a + b) times k
      = start.loop conf ping a times k ++ start.loop conf ping b (times + a) (k + a) := by
  induction a generalizing times k with
  | zero => simp [start.loop]
  | succ a ih =>
    have e : a + 1 + b = (a + b) + 1 := by omega
    rw [e]
    simp only [start.loop, ih, List.append_assoc]
    have e2 : times + 1 + (a : Int) = times + ((a + 1 : Nat) : Int) := by push_cast; omega
    have e3 : k + 1 + a = k + (a + 1) := by omega
    rw [e2, e3]

/-- With a count of `n + 1`, the loop of `start` sends `n + 1` outcomes, then
`errOutOfTries`, and then goes on: it calls `p.ping()` again and sends what
that call returned. -/
theorem start_continues_after_errOutOfTries (p : pinger)
    (ping : Nat → Except String result) (n : Nat) (h : p.conf.count = n + 1) :
    pinger.start p ping (n + 2)
      = plainPasses ping (n + 1) 0
        ++ [action.sendError pingError.errOutOfTries, action.probe (n + 1),
            outcomeAction ping (n + 1), action.sleep] := by
  have e : n + 2 = (n + 1) + 1 := rfl
  unfold pinger.start
  rw [e, start_loop_add, start_loop_below p.conf ping (n + 1) 0 0 (by rw [h]; push_cast; omega)]
  have hle : p.conf.count ≤ (n : Int) + 1 := by omega
  have hne : p.conf.count ≠ 0 := by omega
  simp [start.loop, start.body, hle, hne, outcomeAction]

/-- Claim C1, at the count 1 with probes that all succeed: after the outcome
of the one probe and `errOutOfTries`, the loop of `start` calls `p.ping()` a
second time and sends its outcome too. -/
theorem start_count_one_trace :
    pinger.start countOnePinger (fun _ => Except.ok sampleResult) 2
      = [action.probe 0, action.sendResult sampleResult, action.sleep,
         action.sendError pingError.errOutOfTries,
         action.probe 1, action.sendResult sampleResult, action.sleep] := by
  decide!

/-! ## Properties of the timestamp payload of `ping` -/

/-- A byte made from a number below 256 is that number. -/
theorem toNat_ofNat_mod (v : Nat) : (UInt8.ofNat (v % 256)).toNat = v % 256 := by
  show (v % 256) % 256 = v % 256
  exact Nat.mod_mod _ _

/-- Reading back `n` little-endian bytes of `v` gives `v` modulo `256 ^ n`. -/
theorem littleEndianValue_bytes (n v : Nat) :
    littleEndianValue (littleEndianBytes n v) = v % 256 ^ n := by
  induction n generalizing v with
  | zero => simp [littleEndianValue, littleEndianBytes, Nat.mod_one]
  | succ n ih =>
    simp only [littleEndianBytes, littleEndianValue, ih, toNat_ofNat_mod]
    rw [pow_succ, mul_comm (256 ^ n) 256, Nat.mod_mul]

/-- The encoding on `n` bytes has `n` bytes. -/
theorem littleEndianBytes_length (n v : Nat) : (littleEndianBytes n v).length = n := by
  induction n generalizing v with
  | zero => rfl
  | succ n ih => simp [littleEndianBytes, ih]

/-- Converting an `int64` to `uint64` and back changes nothing. -/
theorem toInt64_toUint64 (t : Int) (h1 : -2 ^ 63 ≤ t) (h2 : t < 2 ^ 63) :
    toInt64 (toUint64 t) = t := by
  unfold toInt64 toUint64
  have e : (((t % 2 ^ 64).toNat % 2 ^ 64 : Nat) : Int) = t % 2 ^ 64 := by
    omega
  rw [e]
  split <;> omega

/-- The timestamp written by `ping` is read back from an Echo body, for every
`int64` value. -/
theorem timestamp_of_echo (t : Int) (h1 : -2 ^ 63 ≤ t) (h2 : t < 2 ^ 63) (id seq : Nat) :
    ping.timestamp (Echo.body { ID := id, Seq := seq, Data := binaryWriteInt64 t })
      = Outcome.ok t := by
  have hlen : (binaryWriteInt64 t).length = 8 := littleEndianBytes_length 8 _
  have hval : toInt64 (littleEndianValue (binaryWriteInt64 t)) = t := by
    unfold binaryWriteInt64
    rw [littleEndianValue_bytes]
    have e : toUint64 t % 256 ^ 8 = toUint64 t := by
      unfold toUint64
      omega
    rw [e]
    exact toInt64_toUint64 t h1 h2
  have htake : (binaryWriteInt64 t).take 8 = binaryWriteInt64 t := by
    rw [List.take_of_length_le (le_of_eq hlen)]
  simp [ping.timestamp, Echo.body, sliceFrom, binaryReadInt64, hlen, htake, hval]

/-- Claim C5: for every non-negative 64-bit nanosecond timestamp `t`, the
payload `ping` writes for `t` (8 bytes, little-endian), placed in an Echo body
after the 4 bytes of identifier and sequence number, is decoded by `ping`
(skip 4 bytes of the marshalled body, read 8 bytes little-endian) to exactly `t`. -/
theorem timestamp_roundtrip (t : Int) (h0 : 0 ≤ t) (h : t < 2 ^ 63) (id seq : Nat) :
    (binaryWriteInt64 t).length = 8
      ∧ ((Echo.body { ID := id, Seq := seq, Data := binaryWriteInt64 t }).Marshal 1).1.drop 4
          = binaryWriteInt64 t
      ∧ ping.timestamp (Echo.body { ID := id, Seq := seq, Data := binaryWriteInt64 t })
          = Outcome.ok t :=
  ⟨littleEndianBytes_length 8 _, rfl, timestamp_of_echo t (by omega) h id seq⟩

/-- A timestamp of November 2023, sent with identifier 4242 and sequence number 1. -/
theorem timestamp_roundtrip_witness :
    (0 : Int) ≤ 1700000000123456789 ∧ (1700000000123456789 : Int) < 2 ^ 63
      ∧ ping.timestamp
          (Echo.body { ID := 4242, Seq := 1, Data := binaryWriteInt64 1700000000123456789 })
        = Outcome.ok 1700000000123456789 :=
  ⟨by decide, by decide,
    (timestamp_roundtrip 1700000000123456789 (by decide) (by decide) 4242 1).2.2⟩

/-- A marshalled body of 4 to 11 bytes makes the timestamp read fail with an error. -/
theorem timestamp_short_error (body : MessageBody)
    (h4 : 4 ≤ (body.Marshal 1).1.length) (h12 : (body.Marshal 1).1.length < 12) :
    ∃ e, ping.timestamp body = Outcome.error ("ping(): error reading binary data: " ++ e) := by
  unfold ping.timestamp sliceFrom binaryReadInt64
  simp only [h4, if_true, List.length_drop]
  by_cases h0 : (body.Marshal 1).1.length - 4 = 0
  · exact ⟨"EOF", by simp [h0]⟩
  · have h8 : (body.Marshal 1).1.length - 4 < 8 := by omega
    exact ⟨"unexpected EOF", by simp [h0, h8]⟩

/-- A marshalled body of fewer than 4 bytes makes `m[4:]` panic. -/
theorem timestamp_short_panic (body : MessageBody) (h4 : (body.Marshal 1).1.length < 4) :
    ping.timestamp body = Outcome.panic "slice bounds out of range" := by
  have h : ¬ 4 ≤ (body.Marshal 1).1.length := by omega
  simp [ping.timestamp, sliceFrom, h]

/-- A datagram of type 42, extended echo request, goes to the parser of that
type: when that parser rejects the body, `ping` returns the parse error. -/
theorem ping_type_42_parse_error (wb : List UInt8)
    (parsers : icmpType → List UInt8 → Except String MessageBody)
    (h : parsers (icmpType.v4 42) [7, 7] = Except.error "message too short") :
    pinger.ping countOnePinger
        { shortReplyEnv wb parsers with
          readFrom := Except.ok ([42, 0, 0, 0, 7, 7], "192.0.2.1") }
      = Outcome.error "ping(): error parsing ICMP message: message too short" := by
  have hp : ParseMessage parsers 1 [42, 0, 0, 0, 7, 7]
      = Except.error "message too short" := by
    simp [ParseMessage, isEchoType, hasOwnParser, UInt8.size, h]
  simp [pinger.ping, shortReplyEnv, countOnePinger, hp]

/-- When the lookup returns an error and no address, `newPinger` returns the
resolution error. -/
theorem newPinger_lookup_failed (env : netEnv) (host : String) (conf : config)
    (e : String) (hp : env.parseIP host = none) (hl : env.lookupIP host = ([], some e)) :
    newPinger env host conf = Outcome.error ("newPinger: could not resolve host " ++ host) := by
  simp [newPinger, newPinger.address, hp, hl]

/-- When the lookup returns no error and no address, `newPinger` indexes
into the empty slice. -/
theorem newPinger_lookup_empty (env : netEnv) (host : String) (conf : config)
    (hp : env.parseIP host = none) (hl : env.lookupIP host = ([], none)) :
    newPinger env host conf = Outcome.panic "index out of range [0] with length 0" := by
  simp [newPinger, newPinger.address, hp, hl]

/-- Claim C7, at a lookup that returns an empty list and a nil error:
`newPinger` passes its guard and stops with the panic of `ips[0]`; it returns
no resolution error. -/
theorem newPinger_empty_list_panics :
    newPinger (lookupEnv [] none) "example.invalid" { ttl := 0, count := 0 }
      = Outcome.panic "index out of range [0] with length 0" := by
  decide

/-- Claim C8 as stated fails: the address selection of the specification and
the one of `newPinger` differ: on a list of an IPv6 address followed by an IPv4 address the
specification chooses the IPv4 address and `newPinger` the IPv6 one. -/
theorem newPinger_not_ipv4_first :
    ¬ (∀ (env : netEnv) (host : String) (ips : List IP) (err : Option String) (ip : IP),
        env.parseIP host = none → env.lookupIP host = (ips, err) → ips ≠ [] →
        preferIPv4 ips = some ip → newPinger.address env host = Outcome.ok ip) := by
  intro h
  have h1 := h (lookupEnv [sampleV6, sampleV4] none) "example.org" [sampleV6, sampleV4] none
    sampleV4 rfl rfl (by decide) (by decide)
  exact absurd h1 (by decide)

/-- Claim C8, amended: for a host that is not a literal IP and a non-empty
list of addresses returned by the lookup, the address `newPinger` chooses is
the first address of the list, whatever its family; the protocol number of
the pinger is 1 when that address is IPv4 and 58 otherwise; and `newPinger`
returns a pinger whenever the connection opens and the TTL, if one is
configured, is set without error. -/
theorem newPinger_first_address (env : netEnv) (host : String) (conf : config)
    (ip0 : IP) (rest : List IP) (err : Option String)
    (hp : env.parseIP host = none) (hl : env.lookupIP host = (ip0 :: rest, err)) :
    newPinger.address env host = Outcome.ok ip0
      ∧ (∀ p, newPinger env host conf = Outcome.ok p →
          p.ip = ip0 ∧ p.v4 = (IP.To4 ip0).isSome
            ∧ p.proto = (if (IP.To4 ip0).isSome then 1 else 58))
      ∧ (∀ c, env.listenPacket (if (IP.To4 ip0).isSome then "udp4" else "udp6")
            (if (IP.To4 ip0).isSome then "0.0.0.0" else "::") = Except.ok c →
          conf.ttl = 0 ∨ env.setTTL c conf.ttl = Outcome.ok () →
          ∃ p, newPinger env host conf = Outcome.ok p) := by
  have ha : newPinger.address env host = Outcome.ok ip0 := by
    simp [newPinger.address, hp, hl]
  refine ⟨ha, ?_, ?_⟩
  · intro p hpq
    unfold newPinger at hpq
    rw [ha] at hpq
    simp only at hpq
    split at hpq
    · split at hpq <;> simp at hpq
    · split at hpq
      · split at hpq
        · simp at hpq
        · simp at hpq
        · simp only [Outcome.ok.injEq] at hpq
          subst hpq
          simp
      · simp only [Outcome.ok.injEq] at hpq
        subst hpq
        simp
  · intro c hc ht
    unfold newPinger
    rw [ha]
    simp only [Bool.decide_eq_true] at hc ⊢
    by_cases h0 : conf.ttl = 0
    · simp [hc, h0]
    · rcases ht with ht | ht
      · exact absurd ht h0
      · simp [hc, h0, ht]

/-- The lookup returns `2001:db8::1` and then `192.0.2.1`: the pinger has the
first of the two and the protocol number 58. -/
theorem newPinger_first_address_witness :
    (lookupEnv [sampleV6, sampleV4] none).parseIP "example.org" = none
      ∧ (lookupEnv [sampleV6, sampleV4] none).lookupIP "example.org"
          = (sampleV6 :: [sampleV4], none)
      ∧ ∃ p, newPinger (lookupEnv [sampleV6, sampleV4] none) "example.org"
            { ttl := 0, count := 0 } = Outcome.ok p
          ∧ p.ip = sampleV6 ∧ p.proto = 58 := by
  obtain ⟨_, h2, h3⟩ := newPinger_first_address (lookupEnv [sampleV6, sampleV4] none)
    "example.org" { ttl := 0, count := 0 } sampleV6 [sampleV4] none rfl rfl
  obtain ⟨p, hp⟩ := h3 3 rfl (Or.inl rfl)
  obtain ⟨e1, _, e3⟩ := h2 p hp
  exact ⟨rfl, rfl, p, hp, e1, by rw [e3]; decide⟩

end Pb
